import Mathlib

/-!
Shallow embedding of the goal-conditioned hierarchical TD3 policies from
hbaselines/goal_conditioned/policy.py and hbaselines/goal_conditioned/td3.py.

Real vectors are modelled as lists of rationals; neural networks, Gaussian
draws and uniform box samples are explicit functional parameters, so every
definition is executable.  The raw replay-buffer containers
(hbaselines/goal_conditioned/replay_buffer.py) are not part of the sources;
where needed they are modelled from the spec, as marked in the doc comments.
-/

/-- A real vector (a numpy 1-D array), modelled over the rationals. -/
abbrev Vec := List ℚ

/-- Elementwise vector addition.  Operands have equal length at every use
site, so numpy broadcasting is not modelled. -/
def addVec (a b : Vec) : Vec := List.zipWith (fun x y => x + y) a b

/-- Elementwise vector subtraction. -/
def subVec (a b : Vec) : Vec := List.zipWith (fun x y => x - y) a b

/-- Elementwise vector product. -/
def mulVec (a b : Vec) : Vec := List.zipWith (fun x y => x * y) a b

/-- Elementwise negation. -/
def negVec (a : Vec) : Vec := a.map (fun x => -x)

/-- numpy clip of a scalar to the interval from lo to hi:
np.minimum(np.maximum(x, lo), hi). -/
def clip1 (lo hi x : ℚ) : ℚ := min (max x lo) hi

/-- numpy clip applied elementwise to vectors of bounds. -/
def clipVec : Vec → Vec → Vec → Vec
  | x :: xs, lo :: los, hi :: his => clip1 lo hi x :: clipVec xs los his
  | _, _, _ => []

/-- ActorCriticPolicy._get_obs (policy.py lines 157-187): concatenate the
observation with the flattened contextual term, when one is present. -/
def get_obs (obs : Vec) (context : Option Vec) : Vec :=
  match context with
  | none => obs
  | some c => obs ++ c

/-- A transition tuple as stored by the feed-forward replay buffer.  The done
flag is stored as a float, mirroring float(done) in the source. -/
structure Transition where
  obs0 : Vec
  action : Vec
  reward : ℚ
  obs1 : Vec
  doneFlag : ℚ
deriving DecidableEq

/-- Modelled from the spec: the raw replay-buffer storage container
(hbaselines/goal_conditioned/replay_buffer.py, imported by policy.py but not
among the sources) is a fixed-capacity store with FIFO-with-wraparound
eviction once capacity is reached. -/
structure ReplayBuffer where
  capacity : ℕ
  batchSize : ℕ
  storage : List Transition
deriving DecidableEq

/-- Modelled from the spec: insertion appends the transition, evicting the
oldest entry once the fixed capacity is reached. -/
def ReplayBuffer.add (b : ReplayBuffer) (t : Transition) : ReplayBuffer :=
  if b.storage.length < b.capacity then
    { b with storage := b.storage ++ [t] }
  else
    { b with storage := b.storage.tail ++ [t] }

/-- Modelled from the spec: sampling is rejected until the buffer holds a
full batch of entries. -/
def ReplayBuffer.can_sample (b : ReplayBuffer) : Bool :=
  b.batchSize ≤ b.storage.length

/-- FeedForwardPolicy.get_action (policy.py lines 786-804).  The actor
network is the function actor on the processed observation; boxSample is the
uniform draw ac_space.sample() and noise the Gaussian draw, both explicit
inputs.  When random_actions holds the box sample is returned; otherwise the
actor output, perturbed and clipped to the action bounds when apply_noise
holds. -/
def ff_get_action (actor : Vec → Vec) (low high : Vec) (boxSample noise : Vec)
    (obs : Vec) (context : Option Vec) (applyNoise randomActions : Bool) : Vec :=
  let o := get_obs obs context
  if randomActions then boxSample
  else if applyNoise then clipVec (addVec (actor o) noise) low high
  else actor o

/-- FeedForwardPolicy.store_transition (policy.py lines 815-823): unless
evaluate is set, build the processed transition and insert it. -/
def ff_store_transition (buf : ReplayBuffer) (obs0 : Vec) (context0 : Option Vec)
    (action : Vec) (reward : ℚ) (obs1 : Vec) (context1 : Option Vec)
    (done : Bool) (evaluate : Bool) : ReplayBuffer :=
  if evaluate then buf
  else buf.add
    { obs0 := get_obs obs0 context0
      action := action
      reward := reward
      obs1 := get_obs obs1 context1
      doneFlag := if done then 1 else 0 }

/-- FeedForwardPolicy.update (policy.py lines 694-721): when the buffer
cannot supply a batch, return (0, 0) without sampling; otherwise sample one
batch and delegate to the batched update.  The batched update mutates only
the parameter state P, abstracted as doUpdate; sampleBatch abstracts the
uniform random batch draw. -/
def ff_update {P : Type} (doUpdate : P → List Transition → Bool → P × (ℚ × ℚ))
    (sampleBatch : ReplayBuffer → List Transition)
    (buf : ReplayBuffer) (params : P) (updateActor : Bool) :
    ReplayBuffer × P × (ℚ × ℚ) :=
  if buf.can_sample then
    let r := doUpdate params (sampleBatch buf) updateActor
    (buf, r.1, r.2)
  else (buf, params, (0, 0))

/-- FeedForwardPolicy.get_td_map (policy.py lines 873-883): an empty map when
the buffer cannot supply a batch, otherwise the feed map built from a sampled
batch (abstracted as tdFromBatch; keys are placeholder identifiers). -/
def ff_get_td_map (tdFromBatch : List Transition → List (ℕ × Vec))
    (sampleBatch : ReplayBuffer → List Transition) (buf : ReplayBuffer) :
    List (ℕ × Vec) :=
  if buf.can_sample then tdFromBatch (sampleBatch buf)
  else []

/-- tf.stop_gradient: the forward value is the identity function; the marker
records that gradient flow is stopped through the argument. -/
def stop_gradient (x : ℚ) : ℚ := x

/-- TD3 target-policy smoothing (policy.py lines 455-477): the target-actor
action on obs1, perturbed by the Gaussian draw eps clipped to the
target-noise-clip range, the sum clipped to the action bounds. -/
def noisy_actor_target (actorTarget : Vec → Vec) (low high noiseClip : Vec)
    (obs1 eps : Vec) : Vec :=
  clipVec (addVec (actorTarget obs1) (clipVec eps (negVec noiseClip) noiseClip))
    low high

/-- Critic bootstrap target (policy.py lines 479-482), batched: per element,
q_obs1 is the minimum of the two target critics at the smoothed target
action, and target_q = stop_gradient(rew + (1 - done) * gamma * q_obs1). -/
def target_q (gamma : ℚ) (qT0 qT1 : Vec → Vec → ℚ) (actorTarget : Vec → Vec)
    (low high noiseClip : Vec)
    (rews dones : List ℚ) (obs1s epss : List Vec) : List ℚ :=
  (List.zip (List.zip rews dones) (List.zip obs1s epss)).map (fun p =>
    let a := noisy_actor_target actorTarget low high noiseClip p.2.1 p.2.2
    stop_gradient (p.1.1 + (1 - p.1.2) * gamma * min (qT0 p.2.1 a) (qT1 p.2.1 a)))

/-- tf.compat.v1.losses.mean_squared_error with default mean reduction. -/
def mean_squared_error (labels preds : List ℚ) : ℚ :=
  ((List.zipWith (fun a b => (a - b) ^ 2) labels preds).sum) / labels.length

/-- Pointwise Huber penalty with the tf default delta = 1. -/
def huber1 (d : ℚ) : ℚ := if |d| ≤ 1 then d ^ 2 / 2 else |d| - 1 / 2

/-- tf.compat.v1.losses.huber_loss with default delta and mean reduction. -/
def huber_loss (labels preds : List ℚ) : ℚ :=
  ((List.zipWith (fun a b => huber1 (a - b)) labels preds).sum) / labels.length

/-- Critic loss (policy.py lines 546-559): the chosen distance metric (Huber
when use_huber, mean squared error otherwise) of each online critic against
the bootstrap target, summed over the two critics. -/
def critic_loss (useHuber : Bool) (q0 q1 targets : List ℚ) : ℚ :=
  let loss_fn := if useHuber then huber_loss else mean_squared_error
  loss_fn q0 targets + loss_fn q1 targets

/-- A hierarchical (meta) transition as passed to HierReplayBuffer.add
(policy.py lines 1394-1403). -/
structure MetaTransition where
  obs_t : List Vec
  goal_t : Vec
  action_t : List Vec
  reward_t : List ℚ
  done : List Bool
  meta_obs_t : Vec × Vec
  meta_reward_t : ℚ
deriving DecidableEq

/-- Modelled from the spec: the hierarchical replay buffer
(hbaselines/goal_conditioned/replay_buffer.py, not among the sources) is a
fixed-capacity store of meta-transitions with FIFO eviction. -/
structure HierReplayBuffer where
  capacity : ℕ
  batchSize : ℕ
  storage : List MetaTransition
deriving DecidableEq

/-- Modelled from the spec: insertion appends, evicting the oldest entry once
capacity is reached. -/
def HierReplayBuffer.add (b : HierReplayBuffer) (t : MetaTransition) :
    HierReplayBuffer :=
  if b.storage.length < b.capacity then
    { b with storage := b.storage ++ [t] }
  else
    { b with storage := b.storage.tail ++ [t] }

/-- Modelled from the spec: sampling is rejected until the buffer holds a
full batch of entries. -/
def HierReplayBuffer.can_sample (b : HierReplayBuffer) : Bool :=
  b.batchSize ≤ b.storage.length

/-- The mutable per-period accumulator state of GoalConditionedPolicy
(policy.py lines 1163-1195): the current meta action (flattened), the
previous Manager observation, the running meta reward, and the per-period
lists of worker observations, worker actions, intrinsic rewards, done masks
and meta actions. -/
structure GCState where
  meta_action : Vec
  prev_meta_obs : Vec
  meta_reward : ℚ
  observations : List Vec
  worker_actions : List Vec
  worker_rewards : List ℚ
  dones : List Bool
  meta_actions : List Vec
deriving DecidableEq

/-- The fixed goal transition function (policy.py lines 1152-1161): under
relative goals, obs0 + goal - obs1; otherwise the goal unchanged. -/
def goal_transition_fn (relative : Bool) (obs0 goal obs1 : Vec) : Vec :=
  if relative then subVec (addVec obs0 goal) obs1
  else goal

/-- GoalConditionedPolicy._update_meta (policy.py lines 1409-1417): the meta
action is re-queried exactly when the observation list is empty. -/
def update_meta (s : GCState) : Bool :=
  s.observations.length == 0

/-- GoalConditionedPolicy.get_action (policy.py lines 1334-1355).  The
Manager and Worker network evaluations are abstracted as managerAct and
workerAct (the noise and random flags are folded into those abstractions);
goal_dim is the width of the current meta action.  Returns the updated
controller state and the worker action. -/
def gc_get_action (relative : Bool)
    (managerAct : Vec → Option Vec → Vec)
    (workerAct : Vec → Vec → Vec)
    (s : GCState) (obs : Vec) (context : Option Vec) : GCState × Vec :=
  let goalDim := s.meta_action.length
  let newMeta :=
    if update_meta s then managerAct obs context
    else goal_transition_fn relative
      ((s.observations.getLastD []).take goalDim)
      s.meta_action
      (obs.take goalDim)
  ({ s with meta_action := newMeta }, workerAct obs newMeta)

/-- GoalConditionedPolicy.clear_memory (policy.py lines 1419-1430): reset the
meta reward and the five per-period lists. -/
def clear_memory (s : GCState) : GCState :=
  { s with
    meta_reward := 0
    observations := []
    worker_actions := []
    worker_rewards := []
    dones := []
    meta_actions := [] }

/-- GoalConditionedPolicy.store_transition (policy.py lines 1361-1407).  The
worker reward function is abstracted as fn (applied to obs0, the flattened
meta action, and obs1, then scaled).  Appends this step to every accumulator
list, increments the meta reward, records the previous Manager observation on
the first step of a period, and on period completion or episode end appends
the final worker observation, inserts the meta-transition into the
hierarchical replay buffer unless evaluate holds, and clears the accumulator. -/
def gc_store_transition (metaPeriod : ℕ) (rewardScale : ℚ)
    (fn : Vec → Vec → Vec → ℚ)
    (s : GCState) (hbuf : HierReplayBuffer)
    (obs0 : Vec) (context0 : Option Vec) (action : Vec) (reward : ℚ)
    (obs1 : Vec) (context1 : Option Vec) (done evaluate : Bool) :
    GCState × HierReplayBuffer :=
  let s1 : GCState :=
    { s with
      worker_rewards := s.worker_rewards ++ [rewardScale * fn obs0 s.meta_action obs1]
      worker_actions := s.worker_actions ++ [action]
      meta_actions := s.meta_actions ++ [s.meta_action]
      observations := s.observations ++ [get_obs obs0 (some s.meta_action)]
      dones := s.dones ++ [done]
      meta_reward := s.meta_reward + reward }
  let s2 : GCState :=
    { s1 with prev_meta_obs :=
        if s1.observations.length = 1 then get_obs obs0 context0
        else s1.prev_meta_obs }
  if s2.observations.length = metaPeriod ∨ done = true then
    let hbuf2 :=
      if evaluate then hbuf
      else hbuf.add
        { obs_t := s2.observations ++ [get_obs obs1 (some s.meta_action)]
          goal_t := s2.meta_actions.headD []
          action_t := s2.worker_actions
          reward_t := s2.worker_rewards
          done := s2.dones
          meta_obs_t := (s2.prev_meta_obs, get_obs obs1 context1)
          meta_reward_t := s2.meta_reward }
    (clear_memory s2, hbuf2)
  else (s2, hbuf)

/-- GoalConditionedPolicy.update (policy.py lines 1256-1332): when the
hierarchical buffer cannot supply a batch, return ((0, 0), (0, 0)) without
sampling; otherwise sample and delegate (abstracted as doUpdate, which
mutates only the parameter state). -/
def gc_update {P : Type}
    (doUpdate : P → List MetaTransition → P × ((ℚ × ℚ) × (ℚ × ℚ)))
    (sampleBatch : HierReplayBuffer → List MetaTransition)
    (hbuf : HierReplayBuffer) (params : P) :
    HierReplayBuffer × P × ((ℚ × ℚ) × (ℚ × ℚ)) :=
  if hbuf.can_sample then
    let r := doUpdate params (sampleBatch hbuf)
    (hbuf, r.1, r.2)
  else (hbuf, params, ((0, 0), (0, 0)))

/-- GoalConditionedPolicy.get_td_map (policy.py lines 1586-1603): an empty
map when the hierarchical buffer cannot supply a batch. -/
def gc_get_td_map (tdFromBatch : List MetaTransition → List (ℕ × Vec))
    (sampleBatch : HierReplayBuffer → List MetaTransition)
    (hbuf : HierReplayBuffer) : List (ℕ × Vec) :=
  if hbuf.can_sample then tdFromBatch (sampleBatch hbuf)
  else []

/-- numpy fancy indexing v[idxs]: select the listed coordinates. -/
def selectIndices (v : Vec) (idxs : List ℕ) : Vec :=
  idxs.map (fun i => v.getD i 0)

/-- Python negative-stop slicing a[:-n]: drop the last n entries. -/
def dropLastN (v : Vec) (n : ℕ) : Vec :=
  v.take (v.length - n)

/-- One iteration of the outer batch loop of td3.py _log_probs (lines
232-303).  goals are the candidate goals for this batch element (the columns
of meta_actions[i]); obses the meta_period+1 recorded worker observations
(each of which carries the goal as its last goalDim entries); acts the
meta_period recorded low-level actions.  The current worker policy is
evaluated noise-free and non-random through ff_get_action on the
environmental part of each observation and the (relative-goal adjusted)
candidate; the fitness of a candidate is the sum over the period of the
negative mean squared error between recorded and predicted actions. -/
def log_probs_per_sample (actor : Vec → Vec) (low high : Vec) (relative : Bool)
    (goalIndices : List ℕ) (goalDim : ℕ)
    (goals obses acts : List Vec) : List ℚ :=
  goals.map (fun g =>
    ((List.range acts.length).map (fun t =>
      let obst := obses.getD t []
      let adjGoal :=
        if relative then
          addVec g (selectIndices (subVec obst (obses.getD 0 [])) goalIndices)
        else g
      let pred := ff_get_action actor low high [] [] (dropLastN obst goalDim)
        (some adjGoal) false false
      let a := acts.getD t []
      let err : ℚ := ((subVec a pred).map (fun x => x ^ 2)).sum / a.length
      (-err))).sum)

/-- td3.py _log_probs (lines 207-303): the per-batch-element loop mapped over
the batch.  Each batch element carries its candidate goals, its worker
observation sequence and its recorded action sequence. -/
def log_probs (actor : Vec → Vec) (low high : Vec) (relative : Bool)
    (goalIndices : List ℕ) (goalDim : ℕ)
    (metaActions obses acts : List (List Vec)) : List (List ℚ) :=
  (List.zip metaActions (List.zip obses acts)).map (fun p =>
    log_probs_per_sample actor low high relative goalIndices goalDim
      p.1 p.2.1 p.2.2)

/-- The candidate fitness exactly as the SPEC sentence words it (claim C4,
spec section 4.3 step 3): the sum over the meta-period of the negative
squared error, normalized by the squared action-space range, between the
recorded worker action and the candidate-conditioned predicted action. -/
def spec_fitness_per_sample (actor : Vec → Vec) (low high : Vec)
    (relative : Bool) (goalIndices : List ℕ) (goalDim : ℕ)
    (goals obses acts : List Vec) : List ℚ :=
  let range2 := (subVec high low).map (fun x => x ^ 2)
  goals.map (fun g =>
    ((List.range acts.length).map (fun t =>
      let obst := obses.getD t []
      let adjGoal :=
        if relative then
          addVec g (selectIndices (subVec obst (obses.getD 0 [])) goalIndices)
        else g
      let pred := ff_get_action actor low high [] [] (dropLastN obst goalDim)
        (some adjGoal) false false
      let a := acts.getD t []
      let err : ℚ := (List.zipWith (fun d r2 => d ^ 2 / r2) (subVec a pred) range2).sum
      (-err))).sum)

/-- The fitness formula of the AMENDED claim C4: for one candidate goal, the
sum over the meta-period steps of the negative mean squared error (averaged
over action dimensions, with no normalization by the action-space range)
between the recorded worker action and the noise-free, non-random prediction
of the current worker policy on the recorded observation and that candidate
goal. -/
def amended_fitness (actor : Vec → Vec) (low high : Vec) (relative : Bool)
    (goalIndices : List ℕ) (goalDim : ℕ) (g : Vec) (obses acts : List Vec) : ℚ :=
  ((List.range acts.length).map (fun t =>
    let obst := obses.getD t []
    let adjGoal :=
      if relative then
        addVec g (selectIndices (subVec obst (obses.getD 0 [])) goalIndices)
      else g
    let pred := ff_get_action actor low high [] [] (dropLastN obst goalDim)
      (some adjGoal) false false
    let a := acts.getD t []
    let err : ℚ := ((subVec a pred).map (fun x => x ^ 2)).sum / a.length
    (-err))).sum

/-- np.argmax and tf.argmax semantics: the index of the first maximal
element. -/
def argmax_first : List ℚ → ℕ
  | [] => 0
  | [_] => 0
  | x :: y :: rest =>
    let j := argmax_first (y :: rest)
    if (y :: rest).getD j 0 ≤ x then 0 else j + 1

/-- The selection step of _sample_best_meta_action (policy.py lines
1432-1484): per batch element, gather the candidate goal at the argmax of the
fitness row. -/
def sample_best_meta_action (fitness : List (List ℚ))
    (candidates : List (List Vec)) : List Vec :=
  (List.zip fitness candidates).map (fun p => p.2.getD (argmax_first p.1) [])

/-- GoalConditionedPolicy._sample (policy.py lines 1527-1584).  The Gaussian
draws are the explicit input eps: eps j i is entry i of row j of
np.random.normal(size=(num_samples - 2, goal_dim * batch_size)).  Follows the
source: build the (num_samples, goal_dim * batch_size) row matrix from the
Gaussian rows, the raw state difference and the original goals, clip it to
the tiled Manager action-space bounds, and transpose-reshape it into a
(batch_size, goal_dim, num_samples) result. -/
def sample_candidates (low high : Vec) (sc : ℚ) (numSamples goalDim : ℕ)
    (states nextStates origGoals : List Vec) (eps : ℕ → ℕ → ℚ) :
    List (List (List ℚ)) :=
  let batch := origGoals.length
  let specRange := subVec high low
  let diffFlat : Vec :=
    ((List.zipWith subVec nextStates states).map (List.take goalDim)).flatten
  let scaleFlat : Vec :=
    (List.replicate batch (specRange.map (fun x => sc * x / 2))).flatten
  let gaussRows : List Vec :=
    (List.range (numSamples - 2)).map (fun j =>
      addVec diffFlat
        (mulVec ((List.range (goalDim * batch)).map (eps j)) scaleFlat))
  let rows : List Vec := gaussRows ++ [diffFlat, origGoals.flatten]
  let lowTile : Vec := (List.replicate batch low).flatten
  let highTile : Vec := (List.replicate batch high).flatten
  let clipped : List Vec := rows.map (fun r => clipVec r lowTile highTile)
  (List.range batch).map (fun b =>
    (List.range goalDim).map (fun g =>
      clipped.map (fun r => r.getD (b * goalDim + g) 0)))

/-- The TensorFlow operations run by the batched update procedures, as
symbolic tokens. -/
inductive TfOp where
  | criticLoss
  | criticOptimizer (i : ℕ)
  | actorLoss
  | actorOptimizer
  | cgOptimizer
  | targetSoftUpdates
deriving DecidableEq

/-- FeedForwardPolicy.update_from_batch step ops (policy.py lines 757-770):
critic loss and both critic optimizers always; the actor loss, actor
optimizer and target soft updates only when update_actor holds. -/
def manager_step_ops (updateActor : Bool) : List TfOp :=
  [TfOp.criticLoss, TfOp.criticOptimizer 0, TfOp.criticOptimizer 1]
    ++ (if updateActor then
      [TfOp.actorLoss, TfOp.actorOptimizer, TfOp.targetSoftUpdates] else [])

/-- GoalConditionedPolicy._connected_gradients_update step ops (policy.py
lines 1699-1726): identical to the Manager update, except that the connected
gradients optimizer replaces the plain actor optimizer. -/
def cg_step_ops (updateActor : Bool) : List TfOp :=
  [TfOp.criticLoss, TfOp.criticOptimizer 0, TfOp.criticOptimizer 1]
    ++ (if updateActor then
      [TfOp.actorLoss, TfOp.cgOptimizer, TfOp.targetSoftUpdates] else [])

/-- The variable-scope groups of the hierarchy (the name-based TensorFlow
scopes Manager/model/pi etc. as symbolic tags). -/
inductive ScopeTag where
  | managerActor
  | managerCritic (i : ℕ)
  | managerTarget
  | workerActor
  | workerCritic (i : ℕ)
  | workerTarget
deriving DecidableEq

/-- get_trainable_vars("Manager/model/pi/") as used for the var_list of the
connected-gradients optimizer (policy.py lines 1648-1651): of all trainable
variables, exactly those in the Manager actor scope. -/
def cg_var_list (allVars : List (ScopeTag × ℕ)) : List (ScopeTag × ℕ) :=
  allVars.filter (fun v => v.1 == ScopeTag.managerActor)

/-- policy.py line 1644: cg_loss = -mean(worker critic with manager goal)
minus the synthetic reward term. -/
def cg_loss (workerCriticMean rewardFn : ℚ) : ℚ :=
  -workerCriticMean - rewardFn

/-- policy.py lines 1648-1650: the objective minimized by cg_optimizer. -/
def cg_objective (managerActorLoss cgWeights workerCriticMean rewardFn : ℚ) : ℚ :=
  managerActorLoss + cgWeights * cg_loss workerCriticMean rewardFn

/-- policy.py lines 1609-1622: the goal derived from the Manager actor
output: under relative goals, manager_obs[:goal_dim] + actor_output -
worker_obs[:goal_dim]; otherwise the actor output itself. -/
def cg_goal (relative : Bool) (goalDim : ℕ)
    (managerObs workerObs managerActorOut : Vec) : Vec :=
  if relative then
    subVec (addVec (managerObs.take goalDim) managerActorOut)
      (workerObs.take goalDim)
  else managerActorOut

/-- policy.py lines 1635-1641: the synthetic differentiable intrinsic reward,
mimicking the worker reward function on the derived goal. -/
def cg_reward_fn (relative : Bool) (goalDim : ℕ)
    (goal workerObs workerObs1 : Vec) : ℚ :=
  if relative then
    -(mean_squared_error (addVec (workerObs.take goalDim) goal)
      (workerObs1.take goalDim))
  else
    -(mean_squared_error goal (workerObs1.take goalDim))

/-! Helper lemmas shared by the claim theorems. -/

theorem getD_eq_getElem_zero {α : Type} [Inhabited α] (l : List α) (d : α) {i : ℕ}
    (h : i < l.length) : l.getD i d = l[i] :=
  List.getD_eq_getElem l d h

theorem zipWith_getD (f : ℚ → ℚ → ℚ) (a b : List ℚ) (i : ℕ)
    (ha : i < a.length) (hb : i < b.length) :
    (List.zipWith f a b).getD i 0 = f (a.getD i 0) (b.getD i 0) := by
  rw [List.getD_eq_getElem _ _ (by simp; omega), List.getD_eq_getElem _ _ ha,
    List.getD_eq_getElem _ _ hb, List.getElem_zipWith]

theorem map_getD_range (f : ℕ → ℚ) (n i : ℕ) (h : i < n) :
    ((List.range n).map f).getD i 0 = f i := by
  rw [List.getD_eq_getElem _ _ (by simpa), List.getElem_map,
    List.getElem_range]

theorem clipVec_length (x lo hi : Vec) :
    (clipVec x lo hi).length = min x.length (min lo.length hi.length) := by
  induction x generalizing lo hi with
  | nil => cases lo <;> cases hi <;> simp [clipVec]
  | cons a as ih =>
    cases lo with
    | nil => simp [clipVec]
    | cons b bs =>
      cases hi with
      | nil => simp [clipVec]
      | cons c cs => simp [clipVec, ih]; omega

theorem clipVec_getD (x lo hi : Vec) (i : ℕ)
    (hx : i < x.length) (hlo : i < lo.length) (hhi : i < hi.length) :
    (clipVec x lo hi).getD i 0 = clip1 (lo.getD i 0) (hi.getD i 0) (x.getD i 0) := by
  induction x generalizing lo hi i with
  | nil => simp at hx
  | cons a as ih =>
    cases lo with
    | nil => simp at hlo
    | cons b bs =>
      cases hi with
      | nil => simp at hhi
      | cons c cs =>
        cases i with
        | zero => simp [clipVec]
        | succ j =>
          simp only [clipVec, List.getD_cons_succ]
          exact ih bs cs j (by simpa using hx) (by simpa using hlo) (by simpa using hhi)

theorem clip1_bounds (lo hi x : ℚ) (h : lo ≤ hi) :
    lo ≤ clip1 lo hi x ∧ clip1 lo hi x ≤ hi := by
  unfold clip1
  constructor
  · exact le_min (le_max_right x lo) h
  · exact min_le_right _ _

theorem flatten_length_uniform (rows : List Vec) (L : ℕ)
    (h : ∀ r ∈ rows, r.length = L) : rows.flatten.length = rows.length * L := by
  induction rows with
  | nil => simp
  | cons r rest ih =>
    simp only [List.flatten_cons, List.length_append, List.length_cons]
    rw [h r (by simp), ih (fun q hq => h q (by simp [hq]))]
    ring

theorem flatten_getD_uniform (rows : List Vec) (L : ℕ)
    (h : ∀ r ∈ rows, r.length = L) (b g : ℕ)
    (hb : b < rows.length) (hg : g < L) :
    rows.flatten.getD (b * L + g) 0 = (rows.getD b []).getD g 0 := by
  induction rows generalizing b with
  | nil => simp at hb
  | cons r rest ih =>
    have hr : r.length = L := h r (by simp)
    cases b with
    | zero =>
      simp only [List.flatten_cons, List.getD_cons_zero, Nat.zero_mul, Nat.zero_add]
      rw [List.getD_append _ _ _ _ (by omega)]
    | succ b0 =>
      simp only [List.flatten_cons, List.getD_cons_succ]
      have hlen : r.length ≤ (b0 + 1) * L + g := by
        rw [hr]; calc L ≤ (b0 + 1) * L := by nlinarith
          _ ≤ (b0 + 1) * L + g := by omega
      rw [List.getD_append_right _ _ _ _ hlen]
      have harith : (b0 + 1) * L + g - r.length = b0 * L + g := by rw [hr]; ring_nf; omega
      rw [harith]
      exact ih (fun q hq => h q (by simp [hq])) b0 (by simpa using hb)

theorem take_getD (l : Vec) (n g : ℕ) (hg : g < n) (hl : g < l.length) :
    (l.take n).getD g 0 = l.getD g 0 := by
  rw [List.getD_eq_getElem _ _ (by simp; omega), List.getD_eq_getElem _ _ hl,
    List.getElem_take]

theorem argmax_first_lt_length (l : List ℚ) (h : l ≠ []) :
    argmax_first l < l.length := by
  induction l with
  | nil => simp at h
  | cons x rest ih =>
    cases rest with
    | nil => simp [argmax_first]
    | cons y r2 =>
      simp only [argmax_first]
      split
      · simp
      · have := ih (by simp)
        simp only [List.length_cons] at this ⊢
        omega

theorem argmax_first_is_max (l : List ℚ) (i : ℕ) (hi : i < l.length) :
    l.getD i 0 ≤ l.getD (argmax_first l) 0 := by
  induction l generalizing i with
  | nil => simp at hi
  | cons x rest ih =>
    cases rest with
    | nil =>
      cases i with
      | zero => simp [argmax_first]
      | succ i0 => simp at hi
    | cons y r2 =>
      simp only [argmax_first]
      split
      · rename_i hle
        cases i with
        | zero => simp
        | succ i0 =>
          simp only [List.getD_cons_succ, List.getD_cons_zero]
          exact le_trans (ih i0 (by simpa using hi)) hle
      · rename_i hgt
        push_neg at hgt
        cases i with
        | zero =>
          simp only [List.getD_cons_zero, List.getD_cons_succ]
          exact le_of_lt hgt
        | succ i0 =>
          simp only [List.getD_cons_succ]
          exact ih i0 (by simpa using hi)

theorem argmax_first_stable (l : List ℚ) (i : ℕ) (hi : i < argmax_first l) :
    l.getD i 0 < l.getD (argmax_first l) 0 := by
  induction l generalizing i with
  | nil => simp [argmax_first] at hi
  | cons x rest ih =>
    cases rest with
    | nil => simp [argmax_first] at hi
    | cons y r2 =>
      simp only [argmax_first] at hi ⊢
      split
      · rename_i hle
        rw [if_pos hle] at hi
        omega
      · rename_i hgt
        rw [if_neg hgt] at hi
        push_neg at hgt
        cases i with
        | zero =>
          simp only [List.getD_cons_zero, List.getD_cons_succ]
          exact hgt
        | succ i0 =>
          simp only [List.getD_cons_succ]
          exact ih i0 (by omega)

theorem HierReplayBuffer.add_getLast (b : HierReplayBuffer) (t : MetaTransition) :
    (b.add t).storage.getLast? = some t := by
  simp only [HierReplayBuffer.add]
  split <;> exact List.getLast?_concat _

/-! Claim theorems. -/

/-- Claim C7: for every action-space box and observation, get_action with
apply_noise set (and random_actions unset) returns a vector elementwise
within the box for arbitrary Gaussian noise draws; and get_action with
random_actions set returns the uniform box sample without evaluating the
actor network (the result is identical for any two actor networks). -/
theorem ff_get_action_box_safety (actor actorB : Vec → Vec)
    (low high boxSample noise obs : Vec) (context : Option Vec)
    (hlh : ∀ i, low.getD i 0 ≤ high.getD i 0) :
    (∀ i, i < (ff_get_action actor low high boxSample noise obs context true false).length →
        low.getD i 0 ≤ (ff_get_action actor low high boxSample noise obs context true false).getD i 0
      ∧ (ff_get_action actor low high boxSample noise obs context true false).getD i 0 ≤ high.getD i 0)
  ∧ (∀ applyNoise : Bool,
        ff_get_action actor low high boxSample noise obs context applyNoise true = boxSample
      ∧ ff_get_action actor low high boxSample noise obs context applyNoise true
          = ff_get_action actorB low high boxSample noise obs context applyNoise true) := by
  have hred : ff_get_action actor low high boxSample noise obs context true false
      = clipVec (addVec (actor (get_obs obs context)) noise) low high := rfl
  constructor
  · intro i hi
    rw [hred] at hi ⊢
    rw [clipVec_length] at hi
    have hx : i < (addVec (actor (get_obs obs context)) noise).length := by omega
    have hlo : i < low.length := by omega
    have hhi : i < high.length := by omega
    rw [clipVec_getD _ _ _ i hx hlo hhi]
    exact clip1_bounds _ _ _ (hlh i)
  · intro applyNoise
    exact ⟨rfl, rfl⟩

/-- Claim C7 witness: a concrete box, observation and noise draw. -/
theorem ff_get_action_box_safety_witness :
    (∀ i, ([-1, -2] : Vec).getD i 0 ≤ ([1, 3] : Vec).getD i 0)
  ∧ ((∀ i, i < (ff_get_action (fun v => v) [-1, -2] [1, 3] [0, 0] [5, -9] [2, 2] none true false).length →
        ([-1, -2] : Vec).getD i 0 ≤ (ff_get_action (fun v => v) [-1, -2] [1, 3] [0, 0] [5, -9] [2, 2] none true false).getD i 0
      ∧ (ff_get_action (fun v => v) [-1, -2] [1, 3] [0, 0] [5, -9] [2, 2] none true false).getD i 0 ≤ ([1, 3] : Vec).getD i 0)
    ∧ (∀ applyNoise : Bool,
        ff_get_action (fun v => v) [-1, -2] [1, 3] [0, 0] [5, -9] [2, 2] none applyNoise true = [0, 0]
      ∧ ff_get_action (fun v => v) [-1, -2] [1, 3] [0, 0] [5, -9] [2, 2] none applyNoise true
          = ff_get_action (fun v => v ++ v) [-1, -2] [1, 3] [0, 0] [5, -9] [2, 2] none applyNoise true)) := by
  have hlh : ∀ i, ([-1, -2] : Vec).getD i 0 ≤ ([1, 3] : Vec).getD i 0 := by
    intro i
    match i with
    | 0 => norm_num
    | 1 => norm_num
    | n + 2 => simp
  exact ⟨hlh, ff_get_action_box_safety (fun v => v) (fun v => v ++ v) [-1, -2] [1, 3]
    [0, 0] [5, -9] [2, 2] none hlh⟩

/-- Claim C8: feed-forward store_transition with evaluate leaves the replay
buffer (contents and size) unchanged; without evaluate, the processed tuple
(concat(obs0, context0), action, reward, concat(obs1, context1), done) is
inserted into the buffer. -/
theorem ff_store_transition_frame (buf : ReplayBuffer) (obs0 : Vec)
    (c0 : Option Vec) (a : Vec) (r : ℚ) (obs1 : Vec) (c1 : Option Vec)
    (done : Bool) :
    ff_store_transition buf obs0 c0 a r obs1 c1 done true = buf
  ∧ (ff_store_transition buf obs0 c0 a r obs1 c1 done false).storage.getLast?
      = some { obs0 := get_obs obs0 c0, action := a, reward := r,
               obs1 := get_obs obs1 c1, doneFlag := if done then 1 else 0 } := by
  constructor
  · rfl
  · simp only [ff_store_transition, ReplayBuffer.add, Bool.false_eq_true,
      if_false]
    split <;> exact List.getLast?_concat _

/-- Claim C9: when a replay buffer cannot yet supply a full batch, update is
a no-op on parameters and buffers and returns the all-zero result ((0, 0)
for the feed-forward policy, ((0, 0), (0, 0)) for the hierarchy controller),
and get_td_map returns an empty map, for both levels. -/
theorem update_insufficient_buffer {P Q : Type}
    (doU : P → List Transition → Bool → P × (ℚ × ℚ))
    (sampleB : ReplayBuffer → List Transition)
    (tdB : List Transition → List (ℕ × Vec))
    (doGU : Q → List MetaTransition → Q × ((ℚ × ℚ) × (ℚ × ℚ)))
    (sampleH : HierReplayBuffer → List MetaTransition)
    (tdH : List MetaTransition → List (ℕ × Vec))
    (buf : ReplayBuffer) (params : P) (updateActor : Bool)
    (hbuf : HierReplayBuffer) (gparams : Q)
    (hb : buf.can_sample = false) (hh : hbuf.can_sample = false) :
    ff_update doU sampleB buf params updateActor = (buf, params, (0, 0))
  ∧ ff_get_td_map tdB sampleB buf = []
  ∧ gc_update doGU sampleH hbuf gparams = (hbuf, gparams, ((0, 0), (0, 0)))
  ∧ gc_get_td_map tdH sampleH hbuf = [] := by
  refine ⟨?_, ?_, ?_, ?_⟩ <;>
    simp [ff_update, ff_get_td_map, gc_update, gc_get_td_map, hb, hh]

/-- Claim C9 witness: concrete near-empty buffers below the batch size. -/
theorem update_insufficient_buffer_witness :
    (ReplayBuffer.can_sample { capacity := 10, batchSize := 5, storage := [] } = false
  ∧ HierReplayBuffer.can_sample { capacity := 10, batchSize := 5, storage := [] } = false)
  ∧ (ff_update (fun (p : Unit) _ _ => (p, (7, 7))) (fun _ => [])
        { capacity := 10, batchSize := 5, storage := [] } () true
      = ({ capacity := 10, batchSize := 5, storage := [] }, (), (0, 0))
  ∧ ff_get_td_map (fun _ => [(0, [])]) (fun _ => [])
        { capacity := 10, batchSize := 5, storage := [] } = []
  ∧ gc_update (fun (p : Unit) _ => (p, ((7, 7), (7, 7)))) (fun _ => [])
        { capacity := 10, batchSize := 5, storage := [] } ()
      = ({ capacity := 10, batchSize := 5, storage := [] }, (), ((0, 0), (0, 0)))
  ∧ gc_get_td_map (fun _ => [(0, [])]) (fun _ => [])
        { capacity := 10, batchSize := 5, storage := [] } = []) := by
  refine ⟨⟨by decide, by decide⟩, ?_⟩
  exact update_insufficient_buffer _ _ _ _ _ _ _ () true _ () (by decide) (by decide)

/-- Claim C10: hierarchy-controller store_transition with evaluate set still
mutates the per-period accumulator exactly as in training mode - the
intrinsic reward, worker action, meta action, observation and done flag are
appended, the meta reward is incremented, and on period completion or
episode end the accumulator is cleared - and only the insertion into the
hierarchical replay buffer is skipped. -/
theorem gc_store_transition_evaluate_frame
    (metaPeriod : ℕ) (rewardScale : ℚ) (fn : Vec → Vec → Vec → ℚ)
    (s : GCState) (hbuf : HierReplayBuffer)
    (obs0 : Vec) (c0 : Option Vec) (action : Vec) (reward : ℚ)
    (obs1 : Vec) (c1 : Option Vec) (done : Bool) :
    (gc_store_transition metaPeriod rewardScale fn s hbuf obs0 c0 action reward obs1 c1 done true).1
      = (gc_store_transition metaPeriod rewardScale fn s hbuf obs0 c0 action reward obs1 c1 done false).1
  ∧ (gc_store_transition metaPeriod rewardScale fn s hbuf obs0 c0 action reward obs1 c1 done true).2 = hbuf
  ∧ (¬(s.observations.length + 1 = metaPeriod ∨ done = true) →
        (gc_store_transition metaPeriod rewardScale fn s hbuf obs0 c0 action reward obs1 c1 done true).1.worker_rewards
          = s.worker_rewards ++ [rewardScale * fn obs0 s.meta_action obs1]
      ∧ (gc_store_transition metaPeriod rewardScale fn s hbuf obs0 c0 action reward obs1 c1 done true).1.worker_actions
          = s.worker_actions ++ [action]
      ∧ (gc_store_transition metaPeriod rewardScale fn s hbuf obs0 c0 action reward obs1 c1 done true).1.meta_actions
          = s.meta_actions ++ [s.meta_action]
      ∧ (gc_store_transition metaPeriod rewardScale fn s hbuf obs0 c0 action reward obs1 c1 done true).1.observations
          = s.observations ++ [get_obs obs0 (some s.meta_action)]
      ∧ (gc_store_transition metaPeriod rewardScale fn s hbuf obs0 c0 action reward obs1 c1 done true).1.dones
          = s.dones ++ [done]
      ∧ (gc_store_transition metaPeriod rewardScale fn s hbuf obs0 c0 action reward obs1 c1 done true).1.meta_reward
          = s.meta_reward + reward)
  ∧ ((s.observations.length + 1 = metaPeriod ∨ done = true) →
        (gc_store_transition metaPeriod rewardScale fn s hbuf obs0 c0 action reward obs1 c1 done true).1.observations = []
      ∧ (gc_store_transition metaPeriod rewardScale fn s hbuf obs0 c0 action reward obs1 c1 done true).1.meta_reward = 0) := by
  unfold gc_store_transition
  by_cases htrig : s.observations.length + 1 = metaPeriod ∨ done = true
  · simp only [List.length_append, List.length_cons, List.length_nil,
      Nat.zero_add, if_pos htrig]
    refine ⟨by simp, by simp, fun hn => absurd htrig hn, by simp [clear_memory]⟩
  · simp only [List.length_append, List.length_cons, List.length_nil,
      Nat.zero_add, if_neg htrig]
    refine ⟨by simp, by simp, by simp, fun ht => absurd ht htrig⟩

/-- Claim C3: a meta-transition is finalized exactly when the accumulated
worker-step count reaches meta_period or the done flag is set; at
finalization the worker-observation sequence is one longer than the
worker-action and intrinsic-reward sequences (also under early termination),
the meta-transition is appended to the hierarchical replay buffer unless the
rollout is an evaluation one, and the accumulator is reset so that the next
get_action re-queries the Manager. -/
theorem gc_store_transition_finalization
    (metaPeriod : ℕ) (rewardScale : ℚ) (fn : Vec → Vec → Vec → ℚ)
    (s : GCState) (hbuf : HierReplayBuffer)
    (obs0 : Vec) (c0 : Option Vec) (action : Vec) (reward : ℚ)
    (obs1 : Vec) (c1 : Option Vec) (done evaluate : Bool)
    (r : GCState × HierReplayBuffer)
    (hr : r = gc_store_transition metaPeriod rewardScale fn s hbuf obs0 c0 action reward obs1 c1 done evaluate)
    (hA : s.worker_actions.length = s.observations.length)
    (hR : s.worker_rewards.length = s.observations.length)
    (hP : s.observations.length < metaPeriod) :
    ((s.observations.length + 1 = metaPeriod ∨ done = true) →
        (r.1.observations = [] ∧ r.1.worker_actions = [] ∧ r.1.worker_rewards = []
          ∧ r.1.dones = [] ∧ r.1.meta_actions = [] ∧ r.1.meta_reward = 0
          ∧ update_meta r.1 = true)
      ∧ (evaluate = true → r.2 = hbuf)
      ∧ (evaluate = false → ∃ t, r.2.storage.getLast? = some t
          ∧ t.obs_t.length = t.action_t.length + 1
          ∧ t.obs_t.length = t.reward_t.length + 1
          ∧ t.action_t.length = s.observations.length + 1))
  ∧ (¬(s.observations.length + 1 = metaPeriod ∨ done = true) →
        r.2 = hbuf
      ∧ update_meta r.1 = false
      ∧ r.1.observations.length = s.observations.length + 1
      ∧ r.1.worker_actions.length = s.observations.length + 1
      ∧ r.1.worker_rewards.length = s.observations.length + 1) := by
  subst hr
  unfold gc_store_transition
  by_cases htrig : s.observations.length + 1 = metaPeriod ∨ done = true
  · refine ⟨fun _ => ?_, fun hn => absurd htrig hn⟩
    simp only [List.length_append, List.length_cons, List.length_nil,
      Nat.zero_add, if_pos htrig]
    refine ⟨by simp [clear_memory, update_meta], fun he => ?_, fun he => ?_⟩
    · subst he; rfl
    · subst he
      simp only [Bool.false_eq_true, if_false]
      refine ⟨_, HierReplayBuffer.add_getLast hbuf _, ?_, ?_, ?_⟩
      · simp [hA]
      · simp [hR]
      · simp [hA]
  · refine ⟨fun ht => absurd ht htrig, fun _ => ?_⟩
    simp only [List.length_append, List.length_cons, List.length_nil,
      Nat.zero_add, if_neg htrig]
    exact ⟨by simp, by simp [update_meta], by simp, by simp [hA], by simp [hR]⟩

/-- Claim C3 witness: with meta_period 1, the first stored step finalizes a
meta-transition whose observation sequence is one longer than its action and
reward sequences, the accumulator resets, and the next get_action re-queries
the Manager. -/
theorem gc_store_transition_finalization_witness :
    ((⟨[], [], 0, [], [], [], [], []⟩ : GCState).worker_actions.length
        = (⟨[], [], 0, [], [], [], [], []⟩ : GCState).observations.length
    ∧ (⟨[], [], 0, [], [], [], [], []⟩ : GCState).worker_rewards.length
        = (⟨[], [], 0, [], [], [], [], []⟩ : GCState).observations.length
    ∧ (⟨[], [], 0, [], [], [], [], []⟩ : GCState).observations.length < 1)
  ∧ ((((⟨[], [], 0, [], [], [], [], []⟩ : GCState).observations.length + 1 = 1 ∨ false = true) →
        ((gc_store_transition 1 0 (fun _ _ _ => 0) ⟨[], [], 0, [], [], [], [], []⟩ ⟨1, 1, []⟩ [] none [] 0 [] none false false).1.observations = []
          ∧ (gc_store_transition 1 0 (fun _ _ _ => 0) ⟨[], [], 0, [], [], [], [], []⟩ ⟨1, 1, []⟩ [] none [] 0 [] none false false).1.worker_actions = []
          ∧ (gc_store_transition 1 0 (fun _ _ _ => 0) ⟨[], [], 0, [], [], [], [], []⟩ ⟨1, 1, []⟩ [] none [] 0 [] none false false).1.worker_rewards = []
          ∧ (gc_store_transition 1 0 (fun _ _ _ => 0) ⟨[], [], 0, [], [], [], [], []⟩ ⟨1, 1, []⟩ [] none [] 0 [] none false false).1.dones = []
          ∧ (gc_store_transition 1 0 (fun _ _ _ => 0) ⟨[], [], 0, [], [], [], [], []⟩ ⟨1, 1, []⟩ [] none [] 0 [] none false false).1.meta_actions = []
          ∧ (gc_store_transition 1 0 (fun _ _ _ => 0) ⟨[], [], 0, [], [], [], [], []⟩ ⟨1, 1, []⟩ [] none [] 0 [] none false false).1.meta_reward = 0
          ∧ update_meta (gc_store_transition 1 0 (fun _ _ _ => 0) ⟨[], [], 0, [], [], [], [], []⟩ ⟨1, 1, []⟩ [] none [] 0 [] none false false).1 = true)
      ∧ (false = true → (gc_store_transition 1 0 (fun _ _ _ => 0) ⟨[], [], 0, [], [], [], [], []⟩ ⟨1, 1, []⟩ [] none [] 0 [] none false false).2 = ⟨1, 1, []⟩)
      ∧ (false = false → ∃ t, (gc_store_transition 1 0 (fun _ _ _ => 0) ⟨[], [], 0, [], [], [], [], []⟩ ⟨1, 1, []⟩ [] none [] 0 [] none false false).2.storage.getLast? = some t
          ∧ t.obs_t.length = t.action_t.length + 1
          ∧ t.obs_t.length = t.reward_t.length + 1
          ∧ t.action_t.length = (⟨[], [], 0, [], [], [], [], []⟩ : GCState).observations.length + 1))
    ∧ (¬((⟨[], [], 0, [], [], [], [], []⟩ : GCState).observations.length + 1 = 1 ∨ false = true) →
        (gc_store_transition 1 0 (fun _ _ _ => 0) ⟨[], [], 0, [], [], [], [], []⟩ ⟨1, 1, []⟩ [] none [] 0 [] none false false).2 = ⟨1, 1, []⟩
      ∧ update_meta (gc_store_transition 1 0 (fun _ _ _ => 0) ⟨[], [], 0, [], [], [], [], []⟩ ⟨1, 1, []⟩ [] none [] 0 [] none false false).1 = false
      ∧ (gc_store_transition 1 0 (fun _ _ _ => 0) ⟨[], [], 0, [], [], [], [], []⟩ ⟨1, 1, []⟩ [] none [] 0 [] none false false).1.observations.length = (⟨[], [], 0, [], [], [], [], []⟩ : GCState).observations.length + 1
      ∧ (gc_store_transition 1 0 (fun _ _ _ => 0) ⟨[], [], 0, [], [], [], [], []⟩ ⟨1, 1, []⟩ [] none [] 0 [] none false false).1.worker_actions.length = (⟨[], [], 0, [], [], [], [], []⟩ : GCState).observations.length + 1
      ∧ (gc_store_transition 1 0 (fun _ _ _ => 0) ⟨[], [], 0, [], [], [], [], []⟩ ⟨1, 1, []⟩ [] none [] 0 [] none false false).1.worker_rewards.length = (⟨[], [], 0, [], [], [], [], []⟩ : GCState).observations.length + 1)) :=
  ⟨⟨rfl, rfl, by decide⟩,
    gc_store_transition_finalization 1 0 (fun _ _ _ => 0)
      ⟨[], [], 0, [], [], [], [], []⟩ ⟨1, 1, []⟩ [] none [] 0 [] none false false
      _ rfl rfl rfl (by decide)⟩

/-- Claim C1: in the batched TD3 update, the critic bootstrap target at each
batch index equals reward + (1 - done) * gamma * min(Q1_target, Q2_target)
with the target critics evaluated at the noise-smoothed target-actor action
and with the stop-gradient marker wrapping the bootstrap; and the critic
loss is the sum over both online critics of the chosen distance metric
(squared error when use_huber is false, Huber otherwise) between each online
critic prediction and this target (for a batch of size one the metric is the
plain squared error). -/
theorem td3_critic_bootstrap (gamma : ℚ) (qT0 qT1 : Vec → Vec → ℚ)
    (actorTarget : Vec → Vec) (low high noiseClip : Vec)
    (rews dones : List ℚ) (obs1s epss : List Vec) (q0 q1 : List ℚ) (b : ℕ)
    (hd : dones.length = rews.length) (ho : obs1s.length = rews.length)
    (he : epss.length = rews.length) (hb : b < rews.length) :
    (target_q gamma qT0 qT1 actorTarget low high noiseClip rews dones obs1s epss).getD b 0
      = stop_gradient (rews.getD b 0 + (1 - dones.getD b 0) * gamma *
          min (qT0 (obs1s.getD b []) (noisy_actor_target actorTarget low high noiseClip (obs1s.getD b []) (epss.getD b [])))
              (qT1 (obs1s.getD b []) (noisy_actor_target actorTarget low high noiseClip (obs1s.getD b []) (epss.getD b []))))
  ∧ critic_loss false q0 q1 (target_q gamma qT0 qT1 actorTarget low high noiseClip rews dones obs1s epss)
      = mean_squared_error q0 (target_q gamma qT0 qT1 actorTarget low high noiseClip rews dones obs1s epss)
      + mean_squared_error q1 (target_q gamma qT0 qT1 actorTarget low high noiseClip rews dones obs1s epss)
  ∧ critic_loss true q0 q1 (target_q gamma qT0 qT1 actorTarget low high noiseClip rews dones obs1s epss)
      = huber_loss q0 (target_q gamma qT0 qT1 actorTarget low high noiseClip rews dones obs1s epss)
      + huber_loss q1 (target_q gamma qT0 qT1 actorTarget low high noiseClip rews dones obs1s epss)
  ∧ mean_squared_error [q0.getD 0 0]
      [(target_q gamma qT0 qT1 actorTarget low high noiseClip rews dones obs1s epss).getD 0 0]
      = (q0.getD 0 0 - (target_q gamma qT0 qT1 actorTarget low high noiseClip rews dones obs1s epss).getD 0 0) ^ 2 := by
  refine ⟨?_, rfl, rfl, ?_⟩
  · have hlenq : b < (target_q gamma qT0 qT1 actorTarget low high noiseClip rews dones obs1s epss).length := by
      simp [target_q, hd, ho, he]
      omega
    rw [List.getD_eq_getElem _ _ hlenq]
    simp only [target_q, List.getElem_map, List.getElem_zip]
    rw [List.getD_eq_getElem rews 0 hb, List.getD_eq_getElem dones 0 (by omega),
      List.getD_eq_getElem obs1s [] (by omega), List.getD_eq_getElem epss [] (by omega)]
  · simp [mean_squared_error]

/-- Claim C1 witness: a hand-constructed batch of size one with constant
target networks. -/
theorem td3_critic_bootstrap_witness :
    (([(0 : ℚ)] : List ℚ).length = ([(7 : ℚ)] : List ℚ).length
    ∧ ([[(0 : ℚ)]] : List Vec).length = ([(7 : ℚ)] : List ℚ).length
    ∧ 0 < ([(7 : ℚ)] : List ℚ).length)
  ∧ ((target_q 2 (fun _ _ => 3) (fun _ _ => 5) (fun _ => [0]) [-1] [1] [1] [7] [0] [[0]] [[0]]).getD 0 0
      = stop_gradient (([(7 : ℚ)] : List ℚ).getD 0 0 + (1 - ([(0 : ℚ)] : List ℚ).getD 0 0) * 2 *
          min ((fun (_ _ : Vec) => (3 : ℚ)) (([[(0 : ℚ)]] : List Vec).getD 0 []) (noisy_actor_target (fun _ => [0]) [-1] [1] [1] (([[(0 : ℚ)]] : List Vec).getD 0 []) (([[(0 : ℚ)]] : List Vec).getD 0 [])))
              ((fun (_ _ : Vec) => (5 : ℚ)) (([[(0 : ℚ)]] : List Vec).getD 0 []) (noisy_actor_target (fun _ => [0]) [-1] [1] [1] (([[(0 : ℚ)]] : List Vec).getD 0 []) (([[(0 : ℚ)]] : List Vec).getD 0 []))))
    ∧ critic_loss false [1] [2] (target_q 2 (fun _ _ => 3) (fun _ _ => 5) (fun _ => [0]) [-1] [1] [1] [7] [0] [[0]] [[0]])
        = mean_squared_error [1] (target_q 2 (fun _ _ => 3) (fun _ _ => 5) (fun _ => [0]) [-1] [1] [1] [7] [0] [[0]] [[0]])
        + mean_squared_error [2] (target_q 2 (fun _ _ => 3) (fun _ _ => 5) (fun _ => [0]) [-1] [1] [1] [7] [0] [[0]] [[0]])
    ∧ critic_loss true [1] [2] (target_q 2 (fun _ _ => 3) (fun _ _ => 5) (fun _ => [0]) [-1] [1] [1] [7] [0] [[0]] [[0]])
        = huber_loss [1] (target_q 2 (fun _ _ => 3) (fun _ _ => 5) (fun _ => [0]) [-1] [1] [1] [7] [0] [[0]] [[0]])
        + huber_loss [2] (target_q 2 (fun _ _ => 3) (fun _ _ => 5) (fun _ => [0]) [-1] [1] [1] [7] [0] [[0]] [[0]])
    ∧ mean_squared_error [([(1 : ℚ)] : List ℚ).getD 0 0]
        [(target_q 2 (fun _ _ => 3) (fun _ _ => 5) (fun _ => [0]) [-1] [1] [1] [7] [0] [[0]] [[0]]).getD 0 0]
        = (([(1 : ℚ)] : List ℚ).getD 0 0 - (target_q 2 (fun _ _ => 3) (fun _ _ => 5) (fun _ => [0]) [-1] [1] [1] [7] [0] [[0]] [[0]]).getD 0 0) ^ 2) :=
  ⟨⟨rfl, rfl, by decide⟩,
    td3_critic_bootstrap 2 (fun _ _ => 3) (fun _ _ => 5) (fun _ => [0]) [-1] [1] [1]
      [7] [0] [[0]] [[0]] [1] [2] 0 rfl rfl rfl (by decide)⟩

/-- Claim C2: on every hierarchy-controller get_action call that is not a
meta-decision step (non-empty internal observation list) the Manager is not
re-queried (the result is identical for any two Manager networks), and the
current goal is updated by the deterministic goal transition function: under
relative framing the new goal is obs0[:goal_dim] + old_goal - obs1[:goal_dim]
(so the implied absolute target obs + goal stays fixed), and under absolute
framing the goal is returned unchanged. -/
theorem gc_get_action_goal_transition (relative : Bool)
    (mAct mAct2 : Vec → Option Vec → Vec) (wAct : Vec → Vec → Vec)
    (s : GCState) (obs : Vec) (context : Option Vec) (o0 g : Vec)
    (hne : s.observations ≠ [])
    (hlast : s.observations.getLastD [] = o0 ++ g)
    (hdim : s.meta_action.length ≤ o0.length) :
    gc_get_action relative mAct wAct s obs context
      = gc_get_action relative mAct2 wAct s obs context
  ∧ (relative = true →
      (gc_get_action relative mAct wAct s obs context).1.meta_action
        = subVec (addVec (o0.take s.meta_action.length) s.meta_action)
            (obs.take s.meta_action.length))
  ∧ (relative = false →
      (gc_get_action relative mAct wAct s obs context).1.meta_action
        = s.meta_action)
  ∧ (relative = true → ∀ i, i < s.meta_action.length → i < obs.length →
      (gc_get_action relative mAct wAct s obs context).1.meta_action.getD i 0
          + obs.getD i 0
        = o0.getD i 0 + s.meta_action.getD i 0) := by
  have hum : update_meta s = false := by
    simpa [update_meta, List.length_eq_zero] using hne
  have htake : (o0 ++ g).take s.meta_action.length = o0.take s.meta_action.length :=
    List.take_append_of_le_length hdim
  have hlast2 : s.observations.getLast?.getD [] = o0 ++ g := by
    rw [← List.getLastD_eq_getLast?]
    exact hlast
  have hmeta : (gc_get_action relative mAct wAct s obs context).1.meta_action
      = goal_transition_fn relative (o0.take s.meta_action.length) s.meta_action
          (obs.take s.meta_action.length) := by
    simp [gc_get_action, hum, hlast, hlast2, htake]
  refine ⟨by simp [gc_get_action, hum], fun hrel => ?_, fun hrel => ?_, fun hrel => ?_⟩
  · subst hrel
    rw [hmeta]
    simp [goal_transition_fn]
  · subst hrel
    rw [hmeta]
    simp [goal_transition_fn]
  · subst hrel
    intro i hi hio
    rw [hmeta]
    have hlen1 : i < (o0.take s.meta_action.length).length := by
      simp
      omega
    have hlen2 : i < (List.zipWith (fun x y : ℚ => x + y)
        (o0.take s.meta_action.length) s.meta_action).length := by
      simp
      omega
    have hlen3 : i < (obs.take s.meta_action.length).length := by
      simp
      omega
    simp only [goal_transition_fn, subVec, addVec]
    rw [if_pos trivial]
    rw [zipWith_getD _ _ _ i hlen2 hlen3]
    rw [zipWith_getD _ _ _ i hlen1 hi]
    rw [take_getD _ _ _ hi (by omega), take_getD _ _ _ hi hio]
    ring

/-- Claim C2 witness: a concrete non-decision step under relative framing. -/
theorem gc_get_action_goal_transition_witness :
    ((⟨[1], [], 0, [[10, 20, 99]], [], [], [], []⟩ : GCState).observations ≠ []
    ∧ (⟨[1], [], 0, [[10, 20, 99]], [], [], [], []⟩ : GCState).observations.getLastD [] = [10, 20] ++ [99]
    ∧ (⟨[1], [], 0, [[10, 20, 99]], [], [], [], []⟩ : GCState).meta_action.length ≤ ([10, 20] : Vec).length)
  ∧ (gc_get_action true (fun _ _ => [42]) (fun _ g => g) ⟨[1], [], 0, [[10, 20, 99]], [], [], [], []⟩ [5, 6] none
        = gc_get_action true (fun _ _ => [43]) (fun _ g => g) ⟨[1], [], 0, [[10, 20, 99]], [], [], [], []⟩ [5, 6] none
    ∧ (true = true →
        (gc_get_action true (fun _ _ => [42]) (fun _ g => g) ⟨[1], [], 0, [[10, 20, 99]], [], [], [], []⟩ [5, 6] none).1.meta_action
          = subVec (addVec (([10, 20] : Vec).take (⟨[1], [], 0, [[10, 20, 99]], [], [], [], []⟩ : GCState).meta_action.length)
                (⟨[1], [], 0, [[10, 20, 99]], [], [], [], []⟩ : GCState).meta_action)
              (([5, 6] : Vec).take (⟨[1], [], 0, [[10, 20, 99]], [], [], [], []⟩ : GCState).meta_action.length))
    ∧ (true = false →
        (gc_get_action true (fun _ _ => [42]) (fun _ g => g) ⟨[1], [], 0, [[10, 20, 99]], [], [], [], []⟩ [5, 6] none).1.meta_action
          = (⟨[1], [], 0, [[10, 20, 99]], [], [], [], []⟩ : GCState).meta_action)
    ∧ (true = true → ∀ i, i < (⟨[1], [], 0, [[10, 20, 99]], [], [], [], []⟩ : GCState).meta_action.length →
        i < ([5, 6] : Vec).length →
        (gc_get_action true (fun _ _ => [42]) (fun _ g => g) ⟨[1], [], 0, [[10, 20, 99]], [], [], [], []⟩ [5, 6] none).1.meta_action.getD i 0
            + ([5, 6] : Vec).getD i 0
          = ([10, 20] : Vec).getD i 0 + (⟨[1], [], 0, [[10, 20, 99]], [], [], [], []⟩ : GCState).meta_action.getD i 0)) :=
  ⟨⟨by decide, rfl, by decide⟩,
    gc_get_action_goal_transition true (fun _ _ => [42]) (fun _ _ => [43]) (fun _ g => g)
      ⟨[1], [], 0, [[10, 20, 99]], [], [], [], []⟩ [5, 6] none [10, 20] [99]
      (by decide) rfl (by decide)⟩

/-- Claim C6: with connected gradients enabled, the Manager actor step
minimizes actor_loss + cg_weights * (-mean(worker first critic at the goal
derived from the Manager actor output) - synthetic intrinsic reward) through
a separate optimizer whose variable list holds exactly the Manager actor
parameters; the Manager critic update operations are identical to the
non-connected case; and the joint actor step plus target soft-update run
exactly when update_actor is true, at the same cadence as the normal actor
and target updates. -/
theorem connected_gradients_update_shape
    (aLoss w m r : ℚ) (allVars : List (ScopeTag × ℕ)) (ua : Bool) :
    cg_objective aLoss w m r = aLoss + w * (-m - r)
  ∧ (∀ v ∈ cg_var_list allVars, v.1 = ScopeTag.managerActor)
  ∧ (∀ v ∈ allVars, v.1 = ScopeTag.managerActor → v ∈ cg_var_list allVars)
  ∧ cg_step_ops false = manager_step_ops false
  ∧ (cg_step_ops ua).take 3 = (manager_step_ops ua).take 3
  ∧ (TfOp.cgOptimizer ∈ cg_step_ops ua ↔ ua = true)
  ∧ (TfOp.targetSoftUpdates ∈ cg_step_ops ua ↔ ua = true)
  ∧ (TfOp.cgOptimizer ∈ cg_step_ops ua ↔ TfOp.actorOptimizer ∈ manager_step_ops ua) := by
  refine ⟨rfl, ?_, ?_, rfl, ?_, ?_, ?_, ?_⟩
  · intro v hv
    rw [cg_var_list, List.mem_filter] at hv
    simpa using hv.2
  · intro v hv h1
    rw [cg_var_list, List.mem_filter]
    exact ⟨hv, by simpa using h1⟩
  · cases ua <;> decide
  · cases ua <;> decide
  · cases ua <;> decide
  · cases ua <;> decide

/-- Claim C4 counterexample: at a concrete batch element with action-space
range 4 (goal box from -2 to 2), one candidate goal, one meta-period step and
a constant worker policy, the fitness computed by the code (td3.py
_log_probs) is -1, while the sum of negative squared errors normalized by
the squared action-space range, as the claim states it, is -1/16; the claim
therefore does not hold of the code. -/
theorem log_probs_normalization_counterexample :
    log_probs_per_sample (fun _ => [0]) [-2] [2] false [] 1 [[0]] [[5, 0], [5, 0]] [[1]]
      ≠ spec_fitness_per_sample (fun _ => [0]) [-2] [2] false [] 1 [[0]] [[5, 0], [5, 0]] [[1]] := by
  simp [log_probs_per_sample, spec_fitness_per_sample, ff_get_action, get_obs,
    dropLastN, subVec, List.range_succ, List.getD]
  norm_num

/-- Claim C4 as amended: each candidate goal's fitness equals the sum over
the meta-period steps of the negative MEAN squared error - averaged over
action dimensions and NOT normalized by the action-space range - between the
recorded worker action and the action the current worker policy (noise-free,
non-random) produces for the recorded worker observation and that candidate
goal; per batch element the candidate of maximal total fitness is selected,
ties resolved by the first (lowest) index. -/
theorem log_probs_fitness_amended (actor : Vec → Vec) (low high : Vec)
    (relative : Bool) (goalIndices : List ℕ) (goalDim : ℕ)
    (goals obses acts : List Vec) (j : ℕ) (hj : j < goals.length)
    (fitness : List (List ℚ)) (cands : List (List Vec)) (i : ℕ)
    (hif : i < fitness.length) (hic : i < cands.length)
    (hnz : fitness.getD i [] ≠ []) :
    (log_probs_per_sample actor low high relative goalIndices goalDim goals obses acts).getD j 0
      = amended_fitness actor low high relative goalIndices goalDim (goals.getD j []) obses acts
  ∧ (sample_best_meta_action fitness cands).getD i []
      = (cands.getD i []).getD (argmax_first (fitness.getD i [])) []
  ∧ argmax_first (fitness.getD i []) < (fitness.getD i []).length
  ∧ (∀ p, p < (fitness.getD i []).length →
      (fitness.getD i []).getD p 0 ≤ (fitness.getD i []).getD (argmax_first (fitness.getD i [])) 0)
  ∧ (∀ p, p < argmax_first (fitness.getD i []) →
      (fitness.getD i []).getD p 0 < (fitness.getD i []).getD (argmax_first (fitness.getD i [])) 0) := by
  refine ⟨?_, ?_, argmax_first_lt_length _ hnz,
    fun p hp => argmax_first_is_max _ p hp,
    fun p hp => argmax_first_stable _ p hp⟩
  · have hlen : j < (log_probs_per_sample actor low high relative goalIndices goalDim goals obses acts).length := by
      simpa [log_probs_per_sample] using hj
    rw [List.getD_eq_getElem _ _ hlen]
    simp only [log_probs_per_sample, List.getElem_map]
    rw [List.getD_eq_getElem goals [] hj]
    rfl
  · have hzip : i < (List.zip fitness cands).length := by
      simp [hif, hic]
    rw [sample_best_meta_action, List.getD_eq_getElem _ _ (by simpa using hzip),
      List.getElem_map, List.getElem_zip]
    rw [List.getD_eq_getElem fitness [] hif, List.getD_eq_getElem cands [] hic]

/-- Claim C4 amended witness: one batch element, three candidates with a tie
between the second and third fitness values; the stable argmax picks index
one. -/
theorem log_probs_fitness_amended_witness :
    (0 < ([[0], [1]] : List Vec).length ∧ 0 < ([[1, 3, 3]] : List (List ℚ)).length
    ∧ 0 < ([[[7], [8], [9]]] : List (List Vec)).length
    ∧ ([[1, 3, 3]] : List (List ℚ)).getD 0 [] ≠ [])
  ∧ ((log_probs_per_sample (fun _ => [0]) [-2] [2] false [] 1 [[0], [1]] [[5, 0], [5, 0]] [[1]]).getD 0 0
      = amended_fitness (fun _ => [0]) [-2] [2] false [] 1 (([[0], [1]] : List Vec).getD 0 []) [[5, 0], [5, 0]] [[1]]
    ∧ (sample_best_meta_action [[1, 3, 3]] [[[7], [8], [9]]]).getD 0 []
      = (([[[7], [8], [9]]] : List (List Vec)).getD 0 []).getD (argmax_first (([[1, 3, 3]] : List (List ℚ)).getD 0 [])) []
    ∧ argmax_first (([[1, 3, 3]] : List (List ℚ)).getD 0 []) < (([[1, 3, 3]] : List (List ℚ)).getD 0 []).length
    ∧ (∀ p, p < (([[1, 3, 3]] : List (List ℚ)).getD 0 []).length →
        (([[1, 3, 3]] : List (List ℚ)).getD 0 []).getD p 0
          ≤ (([[1, 3, 3]] : List (List ℚ)).getD 0 []).getD (argmax_first (([[1, 3, 3]] : List (List ℚ)).getD 0 [])) 0)
    ∧ (∀ p, p < argmax_first (([[1, 3, 3]] : List (List ℚ)).getD 0 []) →
        (([[1, 3, 3]] : List (List ℚ)).getD 0 []).getD p 0
          < (([[1, 3, 3]] : List (List ℚ)).getD 0 []).getD (argmax_first (([[1, 3, 3]] : List (List ℚ)).getD 0 [])) 0)) :=
  ⟨⟨by decide, by decide, by decide, by decide⟩,
    log_probs_fitness_amended (fun _ => [0]) [-2] [2] false [] 1 [[0], [1]]
      [[5, 0], [5, 0]] [[1]] 0 (by decide) [[1, 3, 3]] [[[7], [8], [9]]] 0
      (by decide) (by decide) (by decide)⟩

theorem index_flatten_lt (b g B L : ℕ) (hb : b < B) (hg : g < L) :
    b * L + g < B * L :=
  calc b * L + g < b * L + L := by omega
    _ = (b + 1) * L := by ring
    _ ≤ B * L := Nat.mul_le_mul_right L hb

theorem replicate_flatten_getD (n : ℕ) (l : Vec) (b g : ℕ)
    (hb : b < n) (hg : g < l.length) :
    (List.replicate n l).flatten.getD (b * l.length + g) 0 = l.getD g 0 := by
  rw [flatten_getD_uniform _ l.length
    (fun r hr => by rw [List.eq_of_mem_replicate hr]) b g (by simpa) hg]
  rw [List.getD_eq_getElem _ [] (by simpa), List.getElem_replicate]

theorem diff_flat_getD (states nextStates : List Vec) (goalDim b g : ℕ)
    (hlen : states.length = nextStates.length)
    (hall : ∀ i, i < states.length → goalDim ≤ (states.getD i []).length
              ∧ goalDim ≤ (nextStates.getD i []).length)
    (hb : b < states.length) (hg : g < goalDim) :
    ((List.zipWith subVec nextStates states).map (List.take goalDim)).flatten.getD (b * goalDim + g) 0
      = (nextStates.getD b []).getD g 0 - (states.getD b []).getD g 0 := by
  have hzl : (List.zipWith subVec nextStates states).length = states.length := by
    simp [hlen]
  have hml : ((List.zipWith subVec nextStates states).map (List.take goalDim)).length
      = states.length := by simp [hzl]
  have hrow : ∀ r ∈ (List.zipWith subVec nextStates states).map (List.take goalDim),
      r.length = goalDim := by
    intro r hr
    rw [List.mem_map] at hr
    obtain ⟨q, hq, hqr⟩ := hr
    rw [List.mem_iff_getElem] at hq
    obtain ⟨i, hil, hqi⟩ := hq
    have hil2 : i < states.length := by rw [hzl] at hil; exact hil
    have hi := hall i hil2
    rw [← hqr, ← hqi, List.getElem_zipWith]
    have h1 : i < nextStates.length := by omega
    have hq1 : (subVec nextStates[i] states[i]).length
        = min nextStates[i].length states[i].length := by simp [subVec]
    rw [List.length_take, hq1]
    rw [List.getD_eq_getElem states [] hil2] at hi
    rw [List.getD_eq_getElem nextStates [] h1] at hi
    omega
  rw [flatten_getD_uniform _ goalDim hrow b g (by rw [hml]; exact hb) hg]
  have hb2 : b < nextStates.length := by omega
  have hbs := hall b hb
  rw [List.getD_eq_getElem _ [] (by rw [hml]; exact hb), List.getElem_map,
    List.getElem_zipWith]
  rw [List.getD_eq_getElem states [] hb, List.getD_eq_getElem nextStates [] hb2] at hbs ⊢
  have hsub : g < (subVec nextStates[b] states[b]).length := by
    simp [subVec]
    omega
  rw [take_getD _ _ _ hg hsub]
  rw [subVec, zipWith_getD _ _ _ g (by omega) (by omega)]

theorem diff_rows_len (states nextStates : List Vec) (goalDim : ℕ)
    (hlen : states.length = nextStates.length)
    (hall : ∀ i, i < states.length → goalDim ≤ (states.getD i []).length
              ∧ goalDim ≤ (nextStates.getD i []).length) :
    ∀ r ∈ (List.zipWith subVec nextStates states).map (List.take goalDim),
      r.length = goalDim := by
  intro r hr
  rw [List.mem_map] at hr
  obtain ⟨q, hq, hqr⟩ := hr
  rw [List.mem_iff_getElem] at hq
  obtain ⟨i, hil, hqi⟩ := hq
  have hil2 : i < states.length := by
    have : (List.zipWith subVec nextStates states).length = states.length := by
      simp [hlen]
    omega
  have hi := hall i hil2
  rw [← hqr, ← hqi, List.getElem_zipWith]
  have h1 : i < nextStates.length := by omega
  have hq1 : (subVec nextStates[i] states[i]).length
      = min nextStates[i].length states[i].length := by simp [subVec]
  rw [List.length_take, hq1]
  rw [List.getD_eq_getElem states [] hil2] at hi
  rw [List.getD_eq_getElem nextStates [] h1] at hi
  omega

theorem diff_flat_len (states nextStates : List Vec) (goalDim : ℕ)
    (hlen : states.length = nextStates.length)
    (hall : ∀ i, i < states.length → goalDim ≤ (states.getD i []).length
              ∧ goalDim ≤ (nextStates.getD i []).length) :
    ((List.zipWith subVec nextStates states).map (List.take goalDim)).flatten.length
      = states.length * goalDim := by
  rw [flatten_length_uniform _ goalDim (diff_rows_len states nextStates goalDim hlen hall)]
  simp [hlen]

theorem uniform_flatten_len (rows : List Vec) (L : ℕ)
    (h : ∀ r ∈ rows, r.length = L) : rows.flatten.length = rows.length * L :=
  flatten_length_uniform rows L h

theorem replicate_flatten_len (n : ℕ) (l : Vec) :
    (List.replicate n l).flatten.length = n * l.length := by
  rw [flatten_length_uniform _ l.length
    (fun r hr => by rw [List.eq_of_mem_replicate hr])]
  simp

theorem sample_candidates_access (low high : Vec) (sc : ℚ) (k goalDim : ℕ)
    (states nextStates origGoals : List Vec) (eps : ℕ → ℕ → ℚ)
    (b g : ℕ) (hb : b < origGoals.length) (hg : g < goalDim) :
    ((sample_candidates low high sc k goalDim states nextStates origGoals eps).getD b []).getD g []
      = ((List.range (k - 2)).map (fun j =>
            addVec (((List.zipWith subVec nextStates states).map (List.take goalDim)).flatten)
              (mulVec ((List.range (goalDim * origGoals.length)).map (eps j))
                ((List.replicate origGoals.length ((subVec high low).map (fun x => sc * x / 2))).flatten)))
          ++ [((List.zipWith subVec nextStates states).map (List.take goalDim)).flatten,
              origGoals.flatten]).map
        (fun r => (clipVec r ((List.replicate origGoals.length low).flatten)
            ((List.replicate origGoals.length high).flatten)).getD (b * goalDim + g) 0) := by
  have h1 : b < (sample_candidates low high sc k goalDim states nextStates origGoals eps).length := by
    simpa [sample_candidates] using hb
  rw [List.getD_eq_getElem (sample_candidates low high sc k goalDim states nextStates origGoals eps) [] h1]
  simp only [sample_candidates, List.getElem_map, List.getElem_range]
  rw [List.getD_eq_getElem _ [] (by simpa using hg)]
  simp only [List.getElem_map, List.getElem_range]
  rw [List.map_map]
  rfl

theorem addVec_length (a b : Vec) : (addVec a b).length = min a.length b.length := by
  simp [addVec]

theorem mulVec_length (a b : Vec) : (mulVec a b).length = min a.length b.length := by
  simp [mulVec]

theorem addVec_getD (a b : Vec) (i : ℕ) (ha : i < a.length) (hb : i < b.length) :
    (addVec a b).getD i 0 = a.getD i 0 + b.getD i 0 :=
  zipWith_getD _ a b i ha hb

theorem mulVec_getD (a b : Vec) (i : ℕ) (ha : i < a.length) (hb : i < b.length) :
    (mulVec a b).getD i 0 = a.getD i 0 * b.getD i 0 :=
  zipWith_getD _ a b i ha hb

theorem map_getD (f : ℚ → ℚ) (l : List ℚ) (i : ℕ) (h : i < l.length) :
    (l.map f).getD i 0 = f (l.getD i 0) := by
  rw [List.getD_eq_getElem _ 0 (by simpa), List.getElem_map,
    List.getD_eq_getElem _ 0 h]

theorem list_map_getD (f : Vec → ℚ) (l : List Vec) (i : ℕ) (h : i < l.length) :
    (l.map f).getD i 0 = f (l.getD i []) := by
  rw [List.getD_eq_getElem _ 0 (by simpa), List.getElem_map,
    List.getD_eq_getElem _ [] h]

theorem map_getD_range_vec (f : ℕ → Vec) (n i : ℕ) (h : i < n) :
    ((List.range n).map f).getD i [] = f i := by
  rw [List.getD_eq_getElem _ [] (by simpa), List.getElem_map, List.getElem_range]

/-- Claim C5: the candidate-goal sampler produces per batch element exactly
k candidates - k-2 Gaussian draws centered at (next_state - state) restricted
to the first goal_dim dimensions with per-dimension standard deviation
0.5 * (action-space range) / 2, plus the raw difference and the originally
logged goal - each clipped elementwise to the Manager action-space box, and
the result has shape (batch_size, goal_dim, k). -/
theorem sample_candidates_spec
    (low high : Vec) (k goalDim : ℕ)
    (states nextStates origGoals : List Vec) (eps : ℕ → ℕ → ℚ)
    (b g j : ℕ) (hk : 2 ≤ k)
    (hlow : low.length = goalDim) (hhigh : high.length = goalDim)
    (hs : states.length = origGoals.length)
    (hn : nextStates.length = origGoals.length)
    (hall : ∀ i, i < origGoals.length →
        goalDim ≤ (states.getD i []).length
      ∧ goalDim ≤ (nextStates.getD i []).length
      ∧ (origGoals.getD i []).length = goalDim)
    (hb : b < origGoals.length) (hg : g < goalDim) (hj : j < k) :
    (sample_candidates low high (1/2) k goalDim states nextStates origGoals eps).length
        = origGoals.length
  ∧ ((sample_candidates low high (1/2) k goalDim states nextStates origGoals eps).getD b []).length
        = goalDim
  ∧ (((sample_candidates low high (1/2) k goalDim states nextStates origGoals eps).getD b []).getD g []).length
        = k
  ∧ (((sample_candidates low high (1/2) k goalDim states nextStates origGoals eps).getD b []).getD g []).getD j 0
      = clip1 (low.getD g 0) (high.getD g 0)
          (if j < k - 2 then
            ((nextStates.getD b []).getD g 0 - (states.getD b []).getD g 0)
              + eps j (b * goalDim + g) * (1 / 2 * (high.getD g 0 - low.getD g 0) / 2)
          else if j = k - 2 then
            (nextStates.getD b []).getD g 0 - (states.getD b []).getD g 0
          else (origGoals.getD b []).getD g 0) := by
  have hallSN : ∀ i, i < states.length →
      goalDim ≤ (states.getD i []).length ∧ goalDim ≤ (nextStates.getD i []).length := by
    intro i hi
    have h := hall i (by omega)
    exact ⟨h.1, h.2.1⟩
  have hsn : states.length = nextStates.length := by omega
  have horows : ∀ r ∈ origGoals, r.length = goalDim := by
    intro r hr
    rw [List.mem_iff_getElem] at hr
    obtain ⟨i, hil, hri⟩ := hr
    have h2 := (hall i hil).2.2
    rw [List.getD_eq_getElem _ [] hil] at h2
    rw [← hri]
    exact h2
  have hidx : b * goalDim + g < origGoals.length * goalDim :=
    index_flatten_lt b g _ _ hb hg
  set DIFF := ((List.zipWith subVec nextStates states).map (List.take goalDim)).flatten with hDIFFdef
  set SCALE := (List.replicate origGoals.length
    ((subVec high low).map (fun x : ℚ => 1 / 2 * x / 2))).flatten with hSCALEdef
  set LOWT := (List.replicate origGoals.length low).flatten with hLOWdef
  set HIGHT := (List.replicate origGoals.length high).flatten with hHIGHdef
  have hDIFFlen : DIFF.length = origGoals.length * goalDim := by
    rw [hDIFFdef, diff_flat_len states nextStates goalDim hsn hallSN, hs]
  have hLOWlen : LOWT.length = origGoals.length * goalDim := by
    rw [hLOWdef, replicate_flatten_len, hlow]
  have hHIGHlen : HIGHT.length = origGoals.length * goalDim := by
    rw [hHIGHdef, replicate_flatten_len, hhigh]
  have hSCLlen : ((subVec high low).map (fun x : ℚ => 1 / 2 * x / 2)).length = goalDim := by
    simp [subVec]
    omega
  have hSCALElen : SCALE.length = origGoals.length * goalDim := by
    rw [hSCALEdef, replicate_flatten_len, hSCLlen]
  have hLOW : LOWT.getD (b * goalDim + g) 0 = low.getD g 0 := by
    rw [hLOWdef]
    have h2 := replicate_flatten_getD origGoals.length low b g hb (by omega)
    rw [hlow] at h2
    exact h2
  have hHIGH : HIGHT.getD (b * goalDim + g) 0 = high.getD g 0 := by
    rw [hHIGHdef]
    have h2 := replicate_flatten_getD origGoals.length high b g hb (by omega)
    rw [hhigh] at h2
    exact h2
  have hDIFF : DIFF.getD (b * goalDim + g) 0
      = (nextStates.getD b []).getD g 0 - (states.getD b []).getD g 0 := by
    rw [hDIFFdef]
    exact diff_flat_getD states nextStates goalDim b g hsn hallSN (by omega) hg
  have hSCALE : SCALE.getD (b * goalDim + g) 0
      = 1 / 2 * (high.getD g 0 - low.getD g 0) / 2 := by
    rw [hSCALEdef]
    have h2 := replicate_flatten_getD origGoals.length
      ((subVec high low).map (fun x : ℚ => 1 / 2 * x / 2)) b g hb (by omega)
    rw [hSCLlen] at h2
    rw [h2, map_getD _ _ _ (by simp [subVec]; omega)]
    rw [subVec, zipWith_getD _ _ _ g (by omega) (by omega)]
  have hOG : origGoals.flatten.getD (b * goalDim + g) 0
      = (origGoals.getD b []).getD g 0 :=
    flatten_getD_uniform origGoals goalDim horows b g hb hg
  have hOGlen : origGoals.flatten.length = origGoals.length * goalDim :=
    flatten_length_uniform origGoals goalDim horows
  refine ⟨by simp [sample_candidates], ?_, ?_, ?_⟩
  · rw [List.getD_eq_getElem _ [] (by simpa [sample_candidates] using hb)]
    simp only [sample_candidates, List.getElem_map, List.getElem_range]
    simp
  · rw [sample_candidates_access low high (1/2) k goalDim states nextStates origGoals eps b g hb hg]
    simp
    omega
  · rw [sample_candidates_access low high (1/2) k goalDim states nextStates origGoals eps b g hb hg]
    rw [← hDIFFdef, ← hSCALEdef, ← hLOWdef, ← hHIGHdef]
    have hEPSlen : ((List.range (goalDim * origGoals.length)).map (eps j)).length
        = origGoals.length * goalDim := by
      rw [List.length_map, List.length_range]
      exact Nat.mul_comm goalDim origGoals.length
    rw [list_map_getD _ _ j (by
      rw [List.length_append, List.length_map, List.length_range]
      simp
      omega)]
    by_cases hlt : j < k - 2
    · rw [List.getD_append _ _ _ _ (by
        rw [List.length_map, List.length_range]
        omega)]
      rw [map_getD_range_vec _ _ _ hlt]
      rw [if_pos hlt]
      have hmul : b * goalDim + g
          < (mulVec ((List.range (goalDim * origGoals.length)).map (eps j)) SCALE).length := by
        rw [mulVec_length, hEPSlen, hSCALElen]
        omega
      have hadd : b * goalDim + g
          < (addVec DIFF (mulVec ((List.range (goalDim * origGoals.length)).map (eps j)) SCALE)).length := by
        rw [addVec_length, hDIFFlen]
        omega
      rw [clipVec_getD _ _ _ _ hadd (by omega) (by omega)]
      rw [hLOW, hHIGH]
      rw [addVec_getD _ _ _ (by omega) hmul]
      rw [hDIFF]
      rw [mulVec_getD _ _ _ (by rw [hEPSlen]; exact hidx) (by omega)]
      rw [hSCALE, map_getD_range _ _ _ (by
        rw [Nat.mul_comm goalDim origGoals.length]
        exact hidx)]
    · rw [List.getD_append_right _ _ _ _ (by
        rw [List.length_map, List.length_range]
        omega)]
      rw [if_neg hlt]
      simp only [List.length_map, List.length_range]
      by_cases hmid : j = k - 2
      · rw [if_pos hmid]
        rw [show j - (k - 2) = 0 from by omega]
        rw [List.getD_cons_zero]
        rw [clipVec_getD _ _ _ _ (by omega) (by omega) (by omega)]
        rw [hLOW, hHIGH, hDIFF]
      · rw [if_neg hmid]
        rw [show j - (k - 2) = 1 from by omega]
        rw [List.getD_cons_succ, List.getD_cons_zero]
        rw [clipVec_getD _ _ _ _ (by omega) (by omega) (by omega)]
        rw [hLOW, hHIGH, hOG]

/-- Claim C5 witness: batch 1, goal dimension 1, k = 3 candidates, zero
Gaussian draws; the choice j = 2 exercises the originally-logged-goal
candidate. -/
theorem sample_candidates_spec_witness :
    ((2 : ℕ) ≤ 3 ∧ ([(-1 : ℚ)] : Vec).length = 1 ∧ ([(1 : ℚ)] : Vec).length = 1
    ∧ ([[0, 9]] : List Vec).length = ([[0]] : List Vec).length
    ∧ ([[2, 9]] : List Vec).length = ([[0]] : List Vec).length
    ∧ (∀ i, i < ([[0]] : List Vec).length →
        1 ≤ (([[0, 9]] : List Vec).getD i []).length
      ∧ 1 ≤ (([[2, 9]] : List Vec).getD i []).length
      ∧ (([[0]] : List Vec).getD i []).length = 1)
    ∧ 0 < ([[0]] : List Vec).length ∧ (0 : ℕ) < 1 ∧ (2 : ℕ) < 3)
  ∧ ((sample_candidates [-1] [1] (1/2) 3 1 [[0, 9]] [[2, 9]] [[0]] (fun _ _ => 0)).length
        = ([[0]] : List Vec).length
    ∧ ((sample_candidates [-1] [1] (1/2) 3 1 [[0, 9]] [[2, 9]] [[0]] (fun _ _ => 0)).getD 0 []).length = 1
    ∧ (((sample_candidates [-1] [1] (1/2) 3 1 [[0, 9]] [[2, 9]] [[0]] (fun _ _ => 0)).getD 0 []).getD 0 []).length = 3
    ∧ (((sample_candidates [-1] [1] (1/2) 3 1 [[0, 9]] [[2, 9]] [[0]] (fun _ _ => 0)).getD 0 []).getD 0 []).getD 2 0
      = clip1 (([(-1 : ℚ)] : Vec).getD 0 0) (([(1 : ℚ)] : Vec).getD 0 0)
          (if 2 < 3 - 2 then
            ((([[2, 9]] : List Vec).getD 0 []).getD 0 0 - (([[0, 9]] : List Vec).getD 0 []).getD 0 0)
              + (fun _ _ => (0 : ℚ)) 2 (0 * 1 + 0) * (1 / 2 * (([(1 : ℚ)] : Vec).getD 0 0 - ([(-1 : ℚ)] : Vec).getD 0 0) / 2)
          else if 2 = 3 - 2 then
            (([[2, 9]] : List Vec).getD 0 []).getD 0 0 - (([[0, 9]] : List Vec).getD 0 []).getD 0 0
          else (([[0]] : List Vec).getD 0 []).getD 0 0)) :=
  ⟨⟨by decide, by decide, by decide, by decide, by decide, by decide, by decide,
    by decide, by decide⟩,
    sample_candidates_spec [-1] [1] 3 1 [[0, 9]] [[2, 9]] [[0]] (fun _ _ => 0)
      0 0 2 (by decide) (by decide) (by decide) (by decide) (by decide)
      (by decide) (by decide) (by decide) (by decide)⟩
